import Mathlib

/-!
# Verification of the laptop price predictor (`src/app.py`)

A shallow embedding of the Streamlit application `app.py`:

* the pricing function `calculate_enhanced_price` (lines 50–65), which calls
  the loaded regression model once on the fixed base configuration
  `[2.5, 8, 512]` and adds hand-calibrated linear adjustments, floored at 8000;
* the per-session state (`history`, `show_history`, `prediction_made`,
  lines 67–73) and the four button handlers (Predict Price, Predict Again,
  History toggle, Clear History), modelled as a labelled step relation;
* the history display (line 158), which shows `reversed(history[-5:])`.

Numbers are modelled as rationals.  The model artifact is modelled as a
function from feature vectors to `Option ℚ` (`none` standing for a raised
exception, which `calculate_enhanced_price` propagates to the handler's
`except` branch).
-/

namespace LaptopApp

/-- The fixed base configuration `np.array([[2.5, 8, 512]])` (app.py line 55). -/
def base_config : List ℚ := [5/2, 8, 512]

/-- Embedding of `calculate_enhanced_price(processor, ram, storage)`
(app.py lines 50–65).  The global `model` is passed explicitly; a raised
exception in `model.predict` is `none` and propagates. -/
def calculate_enhanced_price (model : List ℚ → Option ℚ)
    (processor ram storage : ℚ) : Option ℚ :=
  match model base_config with
  | none => none
  | some base_price =>
      let processor_impact := (processor - 5/2) * 1200
      let ram_impact := (ram - 8) * 750
      let storage_impact := (storage - 512) / 512 * 1800
      let final_price := base_price + processor_impact + ram_impact + storage_impact
      some (max final_price 8000)

/-- Modelled from the spec: the pricing formula `computePrice(spec, baseline)`
of §4.2, written from the spec's words, with the baseline passed directly. -/
def computePrice (processor ram storage baseline : ℚ) : ℚ :=
  max (baseline + (processor - 5/2) * 1200 + (ram - 8) * 750
        + (storage - 512) / 512 * 1800) 8000

/-- A history record (app.py lines 109–114). -/
structure PredictionRecord where
  Processor : ℚ
  RAM : ℚ
  Storage : ℚ
  Price : ℚ
deriving DecidableEq, Repr

/-- The session state `st.session_state` (app.py lines 67–73). -/
structure SessionState where
  history : List PredictionRecord
  show_history : Bool
  prediction_made : Bool
deriving DecidableEq, Repr

/-- The initial session state (app.py lines 68–73). -/
def initState : SessionState :=
  { history := [], show_history := false, prediction_made := false }

/-- The four user actions (button presses). -/
inductive Event where
  | predictPrice (processor ram storage : ℚ)
  | predictAgain
  | toggleHistory
  | clearHistory
deriving DecidableEq, Repr

/-- The history display of app.py line 158: `reversed(history[-5:])`. -/
def displayedHistory (history : List PredictionRecord) : List PredictionRecord :=
  (history.drop (history.length - 5)).reverse

/-- One user action, as executed by the button handlers of app.py:

* `predict_ok` (lines 97–117): the Predict Price button is rendered only when
  `prediction_made` is false; on success the record is appended, and
  `show_history` and `prediction_made` are set;
* `predict_fail` (lines 102, 127–128): an exception inside
  `calculate_enhanced_price` reaches the `except` branch before any state is
  touched, so the state is unchanged;
* `predict_again` (lines 131, 137–140): rendered only when `prediction_made`;
  clears both flags;
* `toggle_hist` (lines 131, 143–145): rendered only when `prediction_made`;
  flips `show_history`;
* `clear_hist` (lines 148, 153–156): the Clear History button is rendered only
  under `if st.session_state.history and st.session_state.show_history`;
  empties the history and hides the view. -/
inductive Step (model : List ℚ → Option ℚ) :
    SessionState → Event → SessionState → Prop where
  | predict_ok {s : SessionState} {processor ram storage price : ℚ} :
      s.prediction_made = false →
      calculate_enhanced_price model processor ram storage = some price →
      Step model s (.predictPrice processor ram storage)
        { history := s.history ++ [⟨processor, ram, storage, price⟩],
          show_history := true, prediction_made := true }
  | predict_fail {s : SessionState} {processor ram storage : ℚ} :
      s.prediction_made = false →
      calculate_enhanced_price model processor ram storage = none →
      Step model s (.predictPrice processor ram storage) s
  | predict_again {s : SessionState} :
      s.prediction_made = true →
      Step model s .predictAgain
        { s with prediction_made := false, show_history := false }
  | toggle_hist {s : SessionState} :
      s.prediction_made = true →
      Step model s .toggleHistory { s with show_history := !s.show_history }
  | clear_hist {s : SessionState} :
      s.history ≠ [] → s.show_history = true →
      Step model s .clearHistory
        { s with history := [], show_history := false }

/-- Session states reachable from the initial state under a fixed loaded model. -/
inductive Reachable (model : List ℚ → Option ℚ) : SessionState → Prop where
  | init : Reachable model initState
  | step {s e s'} : Reachable model s → Step model s e s' → Reachable model s'

/-! ## Helper lemmas -/

/-- Any price successfully produced by `calculate_enhanced_price` is at
least 8000 (the `max(..., 8000)` on line 65). -/
theorem calculate_enhanced_price_ge {model : List ℚ → Option ℚ}
    {processor ram storage price : ℚ}
    (h : calculate_enhanced_price model processor ram storage = some price) :
    8000 ≤ price := by
  unfold calculate_enhanced_price at h
  cases hm : model base_config with
  | none => rw [hm] at h; exact absurd h (by simp)
  | some b =>
      rw [hm] at h
      simp only [Option.some.injEq] at h
      rw [← h]
      exact le_max_right _ _

/-- Every record in the history of a reachable state has price at least 8000. -/
theorem reachable_history_price_ge {model : List ℚ → Option ℚ}
    {s : SessionState} (hs : Reachable model s) :
    ∀ rec ∈ s.history, 8000 ≤ rec.Price := by
  induction hs with
  | init => intro rec h; exact absurd h (by simp [initState])
  | step _ hstep ih =>
      cases hstep with
      | predict_ok h1 h2 =>
          intro rec hrec
          rcases List.mem_append.mp hrec with h | h
          · exact ih rec h
          · rw [List.mem_singleton.mp h]
            exact calculate_enhanced_price_ge h2
      | predict_fail h1 h2 => exact ih
      | predict_again h1 => exact ih
      | toggle_hist h1 => exact ih
      | clear_hist h1 h2 => intro rec h; exact absurd h (by simp)

/-- A displayed record comes from the stored history. -/
theorem mem_of_mem_displayedHistory {rec : PredictionRecord}
    {history : List PredictionRecord}
    (h : rec ∈ displayedHistory history) : rec ∈ history := by
  unfold displayedHistory at h
  exact List.mem_of_mem_drop (List.mem_reverse.mp h)

/-! ## Claims -/

/-- C1: for every specification and baseline `b`, `calculate_enhanced_price`
returns `max(b + (processor - 2.5)*1200 + (ram - 8)*750
+ (storage - 512)/512*1800, 8000)` (the spec's `computePrice`); at the anchor
point `(2.5, 8, 512)` it returns exactly `max(b, 8000)`; and the worked
scenario `(1.0, 4, 128)` with baseline 1000 yields 8000. -/
theorem calculate_enhanced_price_eq_computePrice
    (model : List ℚ → Option ℚ) (b processor ram storage : ℚ)
    (h : model base_config = some b) :
    calculate_enhanced_price model processor ram storage
        = some (computePrice processor ram storage b)
    ∧ calculate_enhanced_price model (5/2) 8 512 = some (max b 8000)
    ∧ (b = 1000 → calculate_enhanced_price model 1 4 128 = some 8000) := by
  refine ⟨?_, ?_, ?_⟩
  · unfold calculate_enhanced_price computePrice
    rw [h]
  · unfold calculate_enhanced_price
    rw [h]
    norm_num
  · intro hb
    subst hb
    unfold calculate_enhanced_price
    rw [h]
    norm_num

/-- Witness for C1 at `model = fun _ => some 1000`, spec `(3, 16, 1024)`. -/
theorem calculate_enhanced_price_eq_computePrice_witness :
    calculate_enhanced_price (fun _ => some 1000) 3 16 1024
        = some (computePrice 3 16 1024 1000)
    ∧ calculate_enhanced_price (fun _ => some 1000) (5/2) 8 512
        = some (max 1000 8000)
    ∧ ((1000 : ℚ) = 1000 →
        calculate_enhanced_price (fun _ => some 1000) 1 4 128 = some 8000) :=
  calculate_enhanced_price_eq_computePrice (fun _ => some 1000) 1000 3 16 1024 rfl

/-- C2: every successfully computed price is at least 8000, for any baseline
(including negative ones); consequently every record ever stored in a
reachable session's history — and every displayed record — has price at
least 8000. -/
theorem price_floor_invariant (model : List ℚ → Option ℚ) (s : SessionState)
    (processor ram storage price : ℚ) (rec : PredictionRecord)
    (hreach : Reachable model s)
    (hcalc : calculate_enhanced_price model processor ram storage = some price)
    (hrec : rec ∈ s.history ∨ rec ∈ displayedHistory s.history) :
    8000 ≤ price ∧ 8000 ≤ rec.Price := by
  refine ⟨calculate_enhanced_price_ge hcalc, ?_⟩
  rcases hrec with h | h
  · exact reachable_history_price_ge hreach rec h
  · exact reachable_history_price_ge hreach rec (mem_of_mem_displayedHistory h)

/-- Witness for C2: a model returning a negative baseline, one prediction made
from the initial state. -/
theorem price_floor_invariant_witness :
    (8000 : ℚ) ≤ 8000
    ∧ (8000 : ℚ) ≤ (PredictionRecord.mk (5/2) 8 512 8000).Price :=
  price_floor_invariant (fun _ => some (-500))
    { history := [⟨5/2, 8, 512, 8000⟩], show_history := true,
      prediction_made := true }
    (5/2) 8 512 8000 ⟨5/2, 8, 512, 8000⟩
    (Reachable.step Reachable.init
      (Step.predict_ok rfl (by norm_num [calculate_enhanced_price])))
    (by norm_num [calculate_enhanced_price])
    (Or.inl (by simp))

/-- C3: the model is only ever consulted at the fixed base configuration
`[2.5, 8, 512]`, never at the user's inputs: two models agreeing there give
identical prices for every user specification, so the baseline is independent
of the user's inputs. -/
theorem baseline_uses_fixed_config
    (model model' : List ℚ → Option ℚ) (processor ram storage : ℚ)
    (h : model base_config = model' base_config) :
    base_config = [5/2, 8, 512]
    ∧ calculate_enhanced_price model processor ram storage
        = calculate_enhanced_price model' processor ram storage := by
  constructor
  · rfl
  · unfold calculate_enhanced_price
    rw [h]

/-- Witness for C3: two models that differ everywhere except at the base
configuration. -/
theorem baseline_uses_fixed_config_witness :
    base_config = [5/2, 8, 512]
    ∧ calculate_enhanced_price (fun _ => some 42000) 6 64 2048
        = calculate_enhanced_price
            (fun v => if v = base_config then some 42000 else some 0) 6 64 2048 :=
  baseline_uses_fixed_config (fun _ => some 42000)
    (fun v => if v = base_config then some 42000 else some 0)
    6 64 2048 (by simp)

/-- C4: for in-range specifications and a fixed baseline, `computePrice` is
monotonically non-decreasing in each of processor speed, memory size and
storage capacity separately (the floor `max(·, 8000)` preserves
monotonicity). -/
theorem computePrice_monotone (p p' r r' st st' b : ℚ)
    (hp1 : 1 ≤ p) (hp2 : p' ≤ 6) (hpp : p ≤ p')
    (hr1 : 4 ≤ r) (hr2 : r' ≤ 64) (hrr : r ≤ r')
    (hs1 : 128 ≤ st) (hs2 : st' ≤ 2048) (hst : st ≤ st') :
    computePrice p r st b ≤ computePrice p' r st b
    ∧ computePrice p r st b ≤ computePrice p r' st b
    ∧ computePrice p r st b ≤ computePrice p r st' b := by
  unfold computePrice
  refine ⟨max_le_max (by linarith) le_rfl,
          max_le_max (by linarith) le_rfl,
          max_le_max ?_ le_rfl⟩
  have hdiv : (st - 512) / 512 * 1800 ≤ (st' - 512) / 512 * 1800 := by
    rw [div_mul_eq_mul_div, div_mul_eq_mul_div]
    apply div_le_div_of_nonneg_right ?_ (by norm_num)
    nlinarith
  linarith

/-- Witness for C4 at `(2, 8, 512) ≤ (3, 16, 1024)` componentwise. -/
theorem computePrice_monotone_witness :
    computePrice 2 8 512 20000 ≤ computePrice 3 8 512 20000
    ∧ computePrice 2 8 512 20000 ≤ computePrice 2 16 512 20000
    ∧ computePrice 2 8 512 20000 ≤ computePrice 2 8 1024 20000 :=
  computePrice_monotone 2 3 8 16 512 1024 20000
    (by norm_num) (by norm_num) (by norm_num) (by norm_num) (by norm_num)
    (by norm_num) (by norm_num) (by norm_num) (by norm_num)

/-- C5: if the baseline prediction raises (`model` returns `none`) during a
prediction request, the session state is unchanged: no record is appended,
`prediction_made` remains false, `show_history` is not set, and the state does
not advance to Result. -/
theorem predict_error_frame (model : List ℚ → Option ℚ) (s s' : SessionState)
    (processor ram storage : ℚ)
    (hfail : model base_config = none)
    (hstep : Step model s (.predictPrice processor ram storage) s') :
    s' = s ∧ s'.history = s.history ∧ s'.prediction_made = false
    ∧ s'.show_history = s.show_history := by
  cases hstep with
  | predict_ok h1 h2 =>
      exfalso
      unfold calculate_enhanced_price at h2
      rw [hfail] at h2
      simp at h2
  | predict_fail h1 h2 => exact ⟨rfl, rfl, h1, rfl⟩

/-- Witness for C5: a model that always raises, applied in the initial state. -/
theorem predict_error_frame_witness :
    initState = initState ∧ initState.history = initState.history
    ∧ initState.prediction_made = false
    ∧ initState.show_history = initState.show_history :=
  predict_error_frame (fun _ => none) initState initState (5/2) 8 512 rfl
    (Step.predict_fail rfl rfl)

/-- C6: a successful prediction request from the Idle state appends exactly one
record — the user's three inputs and the computed price — to the end of the
history, and sets `prediction_made` and `show_history` to true. -/
theorem predict_success_effect (model : List ℚ → Option ℚ)
    (s s' : SessionState) (processor ram storage price : ℚ)
    (hidle : s.prediction_made = false)
    (hok : calculate_enhanced_price model processor ram storage = some price)
    (hstep : Step model s (.predictPrice processor ram storage) s') :
    s'.history = s.history ++ [⟨processor, ram, storage, price⟩]
    ∧ s'.history.length = s.history.length + 1
    ∧ s'.prediction_made = true ∧ s'.show_history = true := by
  cases hstep with
  | predict_ok h1 h2 =>
      rw [hok] at h2
      injection h2 with h
      subst h
      exact ⟨rfl, by simp, rfl, rfl⟩
  | predict_fail h1 h2 =>
      rw [hok] at h2
      simp at h2

/-- Witness for C6: one successful prediction from the initial state. -/
theorem predict_success_effect_witness :
    (SessionState.mk [⟨5/2, 8, 512, 9000⟩] true true).history
        = initState.history ++ [⟨5/2, 8, 512, 9000⟩]
    ∧ (SessionState.mk [⟨5/2, 8, 512, 9000⟩] true true).history.length
        = initState.history.length + 1
    ∧ (SessionState.mk [⟨5/2, 8, 512, 9000⟩] true true).prediction_made = true
    ∧ (SessionState.mk [⟨5/2, 8, 512, 9000⟩] true true).show_history = true :=
  predict_success_effect (fun _ => some 9000) initState
    (SessionState.mk [⟨5/2, 8, 512, 9000⟩] true true) (5/2) 8 512 9000
    rfl (by norm_num [calculate_enhanced_price])
    (Step.predict_ok rfl (by norm_num [calculate_enhanced_price]))

/-- C7: for every stored history, the display shows exactly the
`min(5, length)` most recently appended records, in reverse-insertion order
(the first 5 of the reversed history), and never more than 5 entries. -/
theorem displayedHistory_recent_five (history : List PredictionRecord) :
    displayedHistory history = history.reverse.take 5
    ∧ (displayedHistory history).length = min 5 history.length
    ∧ (displayedHistory history).length ≤ 5 := by
  have h1 : displayedHistory history = history.reverse.take 5 := by
    unfold displayedHistory
    rw [show history.drop (history.length - 5) = history.rtake 5 from rfl,
        List.rtake_eq_reverse_take_reverse, List.reverse_reverse]
  have h2 : (displayedHistory history).length = min 5 history.length := by
    unfold displayedHistory
    rw [List.length_reverse, List.length_drop]
    omega
  exact ⟨h1, h2, by rw [h2]; exact min_le_left _ _⟩

/-- C8: whenever the Clear History action fires, the history becomes empty,
`show_history` becomes false, `prediction_made` is untouched, and the display
is empty. -/
theorem clear_history_frame (model : List ℚ → Option ℚ) (s s' : SessionState)
    (hstep : Step model s .clearHistory s') :
    s'.history = [] ∧ s'.show_history = false
    ∧ s'.prediction_made = s.prediction_made
    ∧ displayedHistory s'.history = [] := by
  cases hstep with
  | clear_hist h1 h2 => exact ⟨rfl, rfl, rfl, rfl⟩

/-- Witness for C8: clearing from a state with one record and visible
history. -/
theorem clear_history_frame_witness :
    (SessionState.mk [] false false).history = []
    ∧ (SessionState.mk [] false false).show_history = false
    ∧ (SessionState.mk [] false false).prediction_made
        = (SessionState.mk [⟨1, 8, 512, 9000⟩] true false).prediction_made
    ∧ displayedHistory (SessionState.mk [] false false).history = [] :=
  clear_history_frame (fun _ => none)
    (SessionState.mk [⟨1, 8, 512, 9000⟩] true false)
    (SessionState.mk [] false false)
    (Step.clear_hist (by simp) rfl)

/-- C9: Predict Again sets `prediction_made` and `show_history` to false and
leaves the accumulated history unchanged. -/
theorem predict_again_frame (model : List ℚ → Option ℚ) (s s' : SessionState)
    (hstep : Step model s .predictAgain s') :
    s'.prediction_made = false ∧ s'.show_history = false
    ∧ s'.history = s.history := by
  cases hstep with
  | predict_again h => exact ⟨rfl, rfl, rfl⟩

/-- Witness for C9: Predict Again from a Result state with one record. -/
theorem predict_again_frame_witness :
    (SessionState.mk [⟨2, 8, 512, 9000⟩] false false).prediction_made = false
    ∧ (SessionState.mk [⟨2, 8, 512, 9000⟩] false false).show_history = false
    ∧ (SessionState.mk [⟨2, 8, 512, 9000⟩] false false).history
        = (SessionState.mk [⟨2, 8, 512, 9000⟩] true true).history :=
  predict_again_frame (fun _ => none)
    (SessionState.mk [⟨2, 8, 512, 9000⟩] true true)
    (SessionState.mk [⟨2, 8, 512, 9000⟩] false false)
    (Step.predict_again rfl)

/-- C10: in every reachable session state, a Clear History step can only fire
when the history is non-empty and the history view is shown (the guard under
which the button is rendered). -/
theorem clear_history_guard (model : List ℚ → Option ℚ) (s s' : SessionState)
    (hreach : Reachable model s)
    (hstep : Step model s .clearHistory s') :
    s.history ≠ [] ∧ s.show_history = true := by
  cases hstep with
  | clear_hist h1 h2 => exact ⟨h1, h2⟩

/-- Witness for C10: a reachable state (one prediction made) from which Clear
History fires. -/
theorem clear_history_guard_witness :
    (SessionState.mk [⟨5/2, 8, 512, 9000⟩] true true).history ≠ []
    ∧ (SessionState.mk [⟨5/2, 8, 512, 9000⟩] true true).show_history = true :=
  clear_history_guard (fun _ => some 9000)
    (SessionState.mk [⟨5/2, 8, 512, 9000⟩] true true)
    (SessionState.mk [] false true)
    (Reachable.step Reachable.init
      (Step.predict_ok rfl (by norm_num [calculate_enhanced_price])))
    (Step.clear_hist (by simp) rfl)

end LaptopApp
